import Mathlib

/-!
Formal model of the zebar desktop shell's command layer and provider
subsystem surface, embedded shallowly from `packages/desktop/src/main.rs`
and `packages/desktop/src/providers/config.rs`.

Rust `HashMap`s are modelled as association lists (`lookupA`, `insertA`,
`eraseA`, `collectA`); fallible operations return `Except`; the Tauri
command handlers become Lean functions over the visible interface of the
`ProviderManager`. Components whose sources are outside the visible slice
(the provider registry/manager internals and the per-variant configuration
records) are modelled from the design specification and marked as such in
their doc comments.
-/

namespace Zebar

/-- Association-list model of Rust's `HashMap<String, A>`: lookup returns the
value of the first entry with the given key. -/
def lookupA {A : Type} (k : String) : List (String × A) → Option A
  | [] => none
  | (k', v) :: m => if k' = k then some v else lookupA k m

/-- Association-list insert with `HashMap::insert` semantics: replace the
value of an existing entry for the key, otherwise append a fresh entry. -/
def insertA {A : Type} (k : String) (v : A) : List (String × A) → List (String × A)
  | [] => [(k, v)]
  | (k', v') :: m => if k' = k then (k, v) :: m else (k', v') :: insertA k v m

/-- Association-list removal of every entry with the given key
(`HashMap::remove`; with unique keys this is removal of the single entry). -/
def eraseA {A : Type} (k : String) : List (String × A) → List (String × A)
  | [] => []
  | (k', v') :: m => if k' = k then eraseA k m else (k', v') :: eraseA k m

/-- Keys of an association-list map, in entry order. -/
def keysA {A : Type} (m : List (String × A)) : List String :=
  m.map Prod.fst

/-- `HashMap` built from a sequence of pairs (`FromIterator` semantics, as in
`.into_iter().collect()`): inserts in order, so a later pair with the same
key overwrites an earlier one. -/
def collectA {A : Type} (l : List (String × A)) : List (String × A) :=
  l.foldl (fun m p => insertA p.1 p.2 m) []

/-- Modelled from the spec: `BatteryProviderConfig` lives in
`providers/battery.rs`, outside the visible source slice. The spec says each
variant carries its own domain-specific parameter set, so the record is
modelled as the raw payload fields the variant's deserializer consumes. -/
structure BatteryProviderConfig where
  fields : List (String × String)
deriving DecidableEq

/-- Modelled from the spec: `CpuProviderConfig` (see `BatteryProviderConfig`). -/
structure CpuProviderConfig where
  fields : List (String × String)
deriving DecidableEq

/-- Modelled from the spec: `HostProviderConfig` (see `BatteryProviderConfig`). -/
structure HostProviderConfig where
  fields : List (String × String)
deriving DecidableEq

/-- Modelled from the spec: `IpProviderConfig` (see `BatteryProviderConfig`). -/
structure IpProviderConfig where
  fields : List (String × String)
deriving DecidableEq

/-- Modelled from the spec: `KomorebiProviderConfig` (see
`BatteryProviderConfig`); its source is `#[cfg(windows)]`-gated. -/
structure KomorebiProviderConfig where
  fields : List (String × String)
deriving DecidableEq

/-- Modelled from the spec: `MemoryProviderConfig` (see `BatteryProviderConfig`). -/
structure MemoryProviderConfig where
  fields : List (String × String)
deriving DecidableEq

/-- Modelled from the spec: `NetworkProviderConfig` (see `BatteryProviderConfig`). -/
structure NetworkProviderConfig where
  fields : List (String × String)
deriving DecidableEq

/-- Modelled from the spec: `WeatherProviderConfig` (see `BatteryProviderConfig`). -/
structure WeatherProviderConfig where
  fields : List (String × String)
deriving DecidableEq

/-- `ProviderConfig` from `providers/config.rs`: a serde internally-tagged
enum (`tag = "type"`, `rename_all = "snake_case"`). In the Rust source the
`Komorebi` variant is `#[cfg(windows)]`-gated and absent from the enum on
non-Windows builds; in this embedding the platform condition is a parameter
of the deserializer (`variantTags`), which carries exactly the variant list
the derived deserializer matches the tag against on each platform. -/
inductive ProviderConfig where
  | battery (c : BatteryProviderConfig)
  | cpu (c : CpuProviderConfig)
  | host (c : HostProviderConfig)
  | ip (c : IpProviderConfig)
  | komorebi (c : KomorebiProviderConfig)
  | memory (c : MemoryProviderConfig)
  | network (c : NetworkProviderConfig)
  | weather (c : WeatherProviderConfig)
deriving DecidableEq

/-- The snake_case discriminator value of each variant, per the serde
attributes on `ProviderConfig`. -/
def tagOf : ProviderConfig → String
  | .battery _ => "battery"
  | .cpu _ => "cpu"
  | .host _ => "host"
  | .ip _ => "ip"
  | .komorebi _ => "komorebi"
  | .memory _ => "memory"
  | .network _ => "network"
  | .weather _ => "weather"

/-- The variant tags of `ProviderConfig` in declaration order, per platform:
`komorebi` (between `ip` and `memory` in `config.rs`) exists only when
compiled for Windows. -/
def variantTags (windows : Bool) : List String :=
  ["battery", "cpu", "host", "ip"] ++
    (if windows then ["komorebi"] else []) ++
    ["memory", "network", "weather"]

/-- A configuration payload after JSON decoding: the value of its `type` tag
field plus the remaining fields, which the selected variant's own
deserializer consumes. -/
structure Payload where
  tag : String
  fields : List (String × String)
deriving DecidableEq

/-- Deserialization errors of the tagged union. serde's derived deserializer
for an internally-tagged enum rejects a tag that names no variant with an
unknown-variant error listing the expected tags. -/
inductive DeError where
  | unknownVariant (got : String) (expected : List String)
deriving DecidableEq

/-- Rendering of a tag list inside serde's unknown-variant message. -/
def renderVariantList : List String → String
  | [] => ""
  | [t] => "`" ++ t ++ "`"
  | t :: ts => "`" ++ t ++ "`, " ++ renderVariantList ts

/-- The message serde renders for a `DeError`, as the caller of the command
would see it. -/
def renderDeError : DeError → String
  | .unknownVariant got expected =>
      "unknown variant `" ++ got ++ "`, expected one of " ++
        renderVariantList expected

/-- Deserialization tag dispatch of `ProviderConfig` with the per-variant
record deserializers specialized to accept any field list: the form used by
the theorems that depend only on the tag dispatch and its rejection paths.
`deserializeProviderConfigWith` below is the general form in which each
variant's own deserializer may fail; the two agree on dispatch and
unknown-tag rejection (`deserializeProviderConfig_eq_acceptAll`). An
unmatched tag is an unknown-variant error, and on a non-Windows build the
`komorebi` arm does not exist, so that tag falls through to the error
case. -/
def deserializeProviderConfig (windows : Bool) (p : Payload) :
    Except DeError ProviderConfig :=
  if p.tag = "battery" then .ok (.battery ⟨p.fields⟩)
  else if p.tag = "cpu" then .ok (.cpu ⟨p.fields⟩)
  else if p.tag = "host" then .ok (.host ⟨p.fields⟩)
  else if p.tag = "ip" then .ok (.ip ⟨p.fields⟩)
  else if windows = true ∧ p.tag = "komorebi" then .ok (.komorebi ⟨p.fields⟩)
  else if p.tag = "memory" then .ok (.memory ⟨p.fields⟩)
  else if p.tag = "network" then .ok (.network ⟨p.fields⟩)
  else if p.tag = "weather" then .ok (.weather ⟨p.fields⟩)
  else .error (.unknownVariant p.tag (variantTags windows))

/-- Modelled from the spec: the per-variant configuration deserializers.
Each variant's parameter record lives in a source file outside the visible
slice (`providers/battery.rs`, ..., `providers/weather.rs`), and per spec
section 7 a malformed or invalid parameter set is a configuration error
that fails parsing before reaching the Registry; so each record's
deserializer is a fallible function of the raw payload fields whose exact
acceptance behavior is left abstract. -/
structure VariantDeserializers where
  battery : List (String × String) → Except DeError BatteryProviderConfig
  cpu : List (String × String) → Except DeError CpuProviderConfig
  host : List (String × String) → Except DeError HostProviderConfig
  ip : List (String × String) → Except DeError IpProviderConfig
  komorebi : List (String × String) → Except DeError KomorebiProviderConfig
  memory : List (String × String) → Except DeError MemoryProviderConfig
  network : List (String × String) → Except DeError NetworkProviderConfig
  weather : List (String × String) → Except DeError WeatherProviderConfig

/-- Deserialization of `ProviderConfig` as the serde derive performs it:
match the payload's `type` tag against the variant tags available on the
build platform (in declaration order) and run the selected variant's own
deserializer on the remaining fields — which may itself fail on invalid
parameters (spec section 7) — while an unmatched tag is an unknown-variant
error. On a non-Windows build the `komorebi` arm does not exist, so that
tag falls through to the error case. -/
def deserializeProviderConfigWith (windows : Bool)
    (d : VariantDeserializers) (p : Payload) :
    Except DeError ProviderConfig :=
  if p.tag = "battery" then (d.battery p.fields).map .battery
  else if p.tag = "cpu" then (d.cpu p.fields).map .cpu
  else if p.tag = "host" then (d.host p.fields).map .host
  else if p.tag = "ip" then (d.ip p.fields).map .ip
  else if windows = true ∧ p.tag = "komorebi" then
    (d.komorebi p.fields).map .komorebi
  else if p.tag = "memory" then (d.memory p.fields).map .memory
  else if p.tag = "network" then (d.network p.fields).map .network
  else if p.tag = "weather" then (d.weather p.fields).map .weather
  else .error (.unknownVariant p.tag (variantTags windows))

/-- The per-variant deserializer instance that accepts any field list:
the specialization under which `deserializeProviderConfigWith` becomes
`deserializeProviderConfig`. -/
def acceptAllDeserializers : VariantDeserializers :=
  ⟨fun fields => .ok ⟨fields⟩, fun fields => .ok ⟨fields⟩,
   fun fields => .ok ⟨fields⟩, fun fields => .ok ⟨fields⟩,
   fun fields => .ok ⟨fields⟩, fun fields => .ok ⟨fields⟩,
   fun fields => .ok ⟨fields⟩, fun fields => .ok ⟨fields⟩⟩

/-- Error type of the provider manager's operations as the call sites in
`main.rs` see it: the handlers only ever render it with `err.to_string()`,
so it is modelled by its rendered message. -/
structure ManagerError where
  to_string : String
deriving DecidableEq

/-- Interface of `ProviderManager` as visible from `main.rs`: the two
`async` operations the command handlers call. The implementation lives in
`providers/provider_manager.rs`, outside the visible slice, so the handlers
are modelled as functions of this interface. -/
structure ProviderManager where
  create : String → ProviderConfig → List String → Except ManagerError Unit
  destroy : String → Except ManagerError Unit

/-- Embedding of the `listen_provider` Tauri command (`main.rs` 70-81):
forward `config_hash`, `config` and `tracked_access` to
`ProviderManager::create`, mapping any error to its rendered string. -/
def listen_provider (config_hash : String) (config : ProviderConfig)
    (tracked_access : List String) (provider_manager : ProviderManager) :
    Except String Unit :=
  (provider_manager.create config_hash config tracked_access).mapError
    ManagerError.to_string

/-- Embedding of the `unlisten_provider` Tauri command (`main.rs` 83-92):
forward `config_hash` to `ProviderManager::destroy`, mapping any error to
its rendered string. -/
def unlisten_provider (config_hash : String)
    (provider_manager : ProviderManager) : Except String Unit :=
  (provider_manager.destroy config_hash).mapError ManagerError.to_string

/-- `OpenWindowArgs` from `main.rs` 36-42; the two `HashMap`s are modelled
as association lists. -/
structure OpenWindowArgs where
  window_id : String
  args : List (String × String)
  env : List (String × String)
deriving DecidableEq

/-- Embedding of the `get_open_window_args` Tauri command (`main.rs` 55-68):
look the label up in the open-window-args map, clone the hit, and wrap the
result in `Ok`. The second component is the map after the call (the handler
only reads it). -/
def get_open_window_args (window_label : String)
    (open_window_args_map : List (String × OpenWindowArgs)) :
    Except String (Option OpenWindowArgs) × List (String × OpenWindowArgs) :=
  (.ok (lookupA window_label open_window_args_map), open_window_args_map)

/-- Parameter kinds of the Tauri command handlers in `main.rs`.
`callerWindow` is the `Window` parameter Tauri fills with the calling
window (as in `set_always_on_top`); the `state...` kinds are managed
application state injected by Tauri, not caller-supplied data; the rest are
caller-supplied arguments. -/
inductive ParamKind where
  | str
  | providerConfigArg
  | vecString
  | boolArg
  | optStr
  | stateProviderManager
  | stateOpenWindowArgsMap
  | appHandle
  | callerWindow
deriving DecidableEq

/-- Parameters of `listen_provider` (`main.rs` 71-76), in order. -/
def listen_provider_params : List (String × ParamKind) :=
  [("config_hash", .str), ("config", .providerConfigArg),
   ("tracked_access", .vecString), ("provider_manager", .stateProviderManager)]

/-- Parameters of `unlisten_provider` (`main.rs` 84-87), in order. -/
def unlisten_provider_params : List (String × ParamKind) :=
  [("config_hash", .str), ("provider_manager", .stateProviderManager)]

/-- Parameters of `read_config_file` (`main.rs` 47-50). -/
def read_config_file_params : List (String × ParamKind) :=
  [("config_path_override", .optStr), ("app_handle", .appHandle)]

/-- Parameters of `get_open_window_args` (`main.rs` 56-59). -/
def get_open_window_args_params : List (String × ParamKind) :=
  [("window_label", .str), ("open_window_args_map", .stateOpenWindowArgsMap)]

/-- Parameters of `set_always_on_top` (`main.rs` 98). -/
def set_always_on_top_params : List (String × ParamKind) :=
  [("window", .callerWindow)]

/-- Parameters of `set_skip_taskbar` (`main.rs` 109-112). -/
def set_skip_taskbar_params : List (String × ParamKind) :=
  [("window", .callerWindow), ("skip", .boolArg)]

/-- The provider-manager operations that occur in `main.rs`: the `create`
call in `listen_provider` and the `destroy` call in `unlisten_provider`. -/
inductive ManagerOpKind where
  | create
  | destroy
deriving DecidableEq

/-- One entry of the Tauri `invoke_handler` registration: the command's
name, its parameter list, and which provider-manager operation (if any) its
body invokes. -/
structure RegisteredCommand where
  name : String
  params : List (String × ParamKind)
  providerOp : Option ManagerOpKind
deriving DecidableEq

/-- The command handlers registered with `tauri::generate_handler!` in
`main.rs` 243-250, in registration order. -/
def invoke_handler : List RegisteredCommand :=
  [⟨"read_config_file", read_config_file_params, none⟩,
   ⟨"get_open_window_args", get_open_window_args_params, none⟩,
   ⟨"listen_provider", listen_provider_params, some .create⟩,
   ⟨"unlisten_provider", unlisten_provider_params, some .destroy⟩,
   ⟨"set_always_on_top", set_always_on_top_params, none⟩,
   ⟨"set_skip_taskbar", set_skip_taskbar_params, none⟩]

/-- Modelled from the spec: a Provider Instance record as the Registry holds
it (spec sections 3 and 4.3) — the configuration plus the subscriber table
(window identity to tracked-access set). The running background computation
itself is not representable in the embedding; its start/stop events are
counted in the `Registry` record instead. The registry source
(`providers/provider_manager.rs`) is outside the visible slice. -/
structure ProviderInstance where
  config : ProviderConfig
  subscribers : List (String × List String)
deriving DecidableEq

/-- Modelled from the spec: the Provider Registry state (spec section 4.3) —
the mapping from configuration identity to instance — extended with two
event counters observing the background computations: `started` counts
variant `start` calls and `stopped` counts `stop` calls. -/
structure Registry where
  instances : List (String × ProviderInstance)
  started : Nat
  stopped : Nat
deriving DecidableEq

/-- The registry at application start: no instances, no events. -/
def Registry.empty : Registry := ⟨[], 0, 0⟩

/-- Modelled from the spec: `acquire` (spec section 4.3). If an instance
already exists for the identity, add/replace the subscriber entry and start
no new computation (the dedup path); otherwise start the variant's
background computation and create the record with a single subscriber. The
spec's start-failure branch returns an error and registers nothing; the
dedup claim concerns the successful path, so variant start is modelled as
succeeding. -/
def Registry.acquire (r : Registry) (identity : String)
    (config : ProviderConfig) (window_identity : String)
    (tracked_fields : List String) : Registry :=
  match lookupA identity r.instances with
  | some inst =>
      { r with
          instances := insertA identity
            { inst with
                subscribers :=
                  insertA window_identity tracked_fields inst.subscribers }
            r.instances }
  | none =>
      { r with
          instances := insertA identity
            ⟨config, [(window_identity, tracked_fields)]⟩ r.instances,
          started := r.started + 1 }

/-- Modelled from the spec: `release` (spec section 4.3). Remove the
subscriber entry for the window; if the subscriber table becomes empty,
invoke `stop` and remove the instance; releasing a nonexistent identity or
subscriber is a no-op. -/
def Registry.release (r : Registry) (identity : String)
    (window_identity : String) : Registry :=
  match lookupA identity r.instances with
  | none => r
  | some inst =>
      let subs := eraseA window_identity inst.subscribers
      if subs.isEmpty then
        { r with
            instances := eraseA identity r.instances,
            stopped := r.stopped + 1 }
      else
        { r with
            instances := insertA identity { inst with subscribers := subs }
              r.instances }

/-- A sequence of `create` calls for one identity and configuration, one per
window in `ws` (each window with its own tracked-access set). -/
def Registry.acquireAll (r : Registry) (identity : String)
    (config : ProviderConfig) (tracked : String → List String)
    (ws : List String) : Registry :=
  ws.foldl (fun s w => s.acquire identity config w (tracked w)) r

/-- A sequence of `destroy` calls for one identity, one per window in `ws`. -/
def Registry.releaseAll (r : Registry) (identity : String)
    (ws : List String) : Registry :=
  ws.foldl (fun s w => s.release identity w) r

/-- Decimal digit characters, as Rust's integer `Display` produces them. -/
def digitChar : Nat → Char
  | 0 => '0'
  | 1 => '1'
  | 2 => '2'
  | 3 => '3'
  | 4 => '4'
  | 5 => '5'
  | 6 => '6'
  | 7 => '7'
  | 8 => '8'
  | 9 => '9'
  | _ => '?'

/-- Numeric value of a decimal digit character (left inverse of
`digitChar` on digits). -/
def charVal (c : Char) : Nat :=
  if c = '0' then 0
  else if c = '1' then 1
  else if c = '2' then 2
  else if c = '3' then 3
  else if c = '4' then 4
  else if c = '5' then 5
  else if c = '6' then 6
  else if c = '7' then 7
  else if c = '8' then 8
  else 9

/-- Decimal rendering of a `Nat` as a character list: most significant digit
first, as Rust's `{}` formatting of an unsigned integer produces it. -/
def decRepr (n : Nat) : List Char :=
  if n = 0 then ['0'] else ((Nat.digits 10 n).map digitChar).reverse

/-- Numeric value of a most-significant-first decimal character list. -/
def decVal (l : List Char) : Nat :=
  l.foldl (fun a c => 10 * a + charVal c) 0

/-- Decimal rendering of a `Nat` as a string. -/
def natStr (n : Nat) : String :=
  ⟨decRepr n⟩

/-- Reduction of a counter value to its 32-bit pattern: the window counter
in `main.rs` 190 is an inferred `i32` (`Mutex::new(0)` incremented with
`+= 1`), which under the Rust release profile (overflow checks off) wraps
around, giving the increment a period of 4294967296 = 2^32 bit patterns.
(A debug build would panic at the 2^31-th increment instead of wrapping.) -/
def wrap32 (n : Nat) : Nat :=
  n % 4294967296

/-- Character rendering of the `i32` whose 32-bit pattern is `bits`, as
Rust's `Display` prints it: patterns below 2^31 print as their decimal
value, patterns from 2^31 up denote the negative value `bits - 2^32` and
print as a minus sign followed by the magnitude `2^32 - bits`. -/
def i32Chars (bits : Nat) : List Char :=
  if bits < 2147483648 then decRepr bits
  else '-' :: decRepr (4294967296 - bits)

/-- String rendering of an `i32` from its 32-bit pattern. -/
def i32Str (bits : Nat) : String :=
  ⟨i32Chars bits⟩

/-- The window label built in the window-creation loop (`main.rs` 204-205):
`format!("\x7b\x7d-\x7b\x7d", window_count, open_args.window_id)`, where
`window_count` is the i32 counter (given here by its 32-bit pattern). -/
def windowLabel (window_count : Nat) (window_id : String) : String :=
  i32Str window_count ++ "-" ++ window_id

/-- State of the window-creation loop in `main.rs` 189-237: the i32 window
counter (as its 32-bit pattern, a `Nat` below 2^32) and the
open-window-args map shared with `get_open_window_args`. -/
structure WindowLoopState where
  window_count : Nat
  args_map : List (String × OpenWindowArgs)
deriving DecidableEq

/-- One iteration of the window-creation loop (`main.rs` 192-236): increment
the i32 counter (wrapping at 2^32, per the release-profile semantics of
`wrap32`), build the label from the incremented counter and the window id,
build the window, and record the open args under the label. Returns the new
state and the label of the window just built. -/
def processOpenArgs (s : WindowLoopState) (open_args : OpenWindowArgs) :
    WindowLoopState × String :=
  let count := wrap32 (s.window_count + 1)
  let window_label := windowLabel count open_args.window_id
  (⟨count, insertA window_label open_args s.args_map⟩, window_label)

/-- The window-creation loop over a finite schedule of received open
requests, returning the final state and the labels generated, in order. -/
def runWindowLoop (s : WindowLoopState) :
    List OpenWindowArgs → WindowLoopState × List String
  | [] => (s, [])
  | a :: rest =>
      let step := processOpenArgs s a
      let run := runWindowLoop step.1 rest
      (run.1, step.2 :: run.2)

/-- Log events `emit_open_args` can produce. The source logs (and does not
return) a message when the channel send fails. -/
inductive LogEvent where
  | emitOpenArgsFailed
deriving DecidableEq

/-- Embedding of `emit_open_args` (`main.rs` 256-270). `env_vars` stands for
the current process environment (`env::vars()`); `send_fails` says whether
`tx.send` fails (receiver dropped). The result is the `OpenWindowArgs`
value built (and passed to `tx.send`) plus the log events; the function
always returns and surfaces no error. -/
def emit_open_args (window_id : String)
    (args : Option (List (String × String)))
    (env_vars : List (String × String)) (send_fails : Bool) :
    OpenWindowArgs × List LogEvent :=
  let open_args : OpenWindowArgs :=
    ⟨window_id, collectA (args.getD []), collectA env_vars⟩
  (open_args, if send_fails then [.emitOpenArgsFailed] else [])

/-- The value of the last pair with the given key in a pair sequence, if
any: the value `collectA` must associate to the key. -/
def lastVal {A : Type} (k : String) (l : List (String × A)) : Option A :=
  (l.reverse.find? (fun p => p.1 == k)).map Prod.snd

/-! ### Association-list lemmas -/

theorem lookupA_insertA_self {A : Type} (k : String) (v : A)
    (m : List (String × A)) : lookupA k (insertA k v m) = some v := by
  induction m with
  | nil => simp [insertA, lookupA]
  | cons p m ih =>
    obtain ⟨k', v'⟩ := p
    by_cases h : k' = k
    · subst h; simp [insertA, lookupA]
    · simp [insertA, lookupA, h, ih]

theorem lookupA_insertA_ne {A : Type} {k k' : String} (hne : k' ≠ k) (v : A)
    (m : List (String × A)) : lookupA k (insertA k' v m) = lookupA k m := by
  induction m with
  | nil => simp [insertA, lookupA, hne]
  | cons p m ih =>
    obtain ⟨k₀, v₀⟩ := p
    by_cases h : k₀ = k'
    · subst h; simp [insertA, lookupA, hne]
    · simp only [insertA, lookupA, if_neg h]
      by_cases h2 : k₀ = k
      · simp [lookupA, h2]
      · simp [lookupA, h2, ih]

theorem lookupA_eraseA_self {A : Type} (k : String) (m : List (String × A)) :
    lookupA k (eraseA k m) = none := by
  induction m with
  | nil => simp [eraseA, lookupA]
  | cons p m ih =>
    obtain ⟨k', v'⟩ := p
    by_cases h : k' = k
    · simp [eraseA, h, ih]
    · simp [eraseA, lookupA, h, ih]

theorem lookupA_eq_none_iff {A : Type} (k : String) (m : List (String × A)) :
    lookupA k m = none ↔ k ∉ keysA m := by
  induction m with
  | nil => simp [lookupA, keysA]
  | cons p m ih =>
    obtain ⟨k', v'⟩ := p
    by_cases h : k' = k
    · simp [lookupA, keysA, h]
    · simp [lookupA, keysA, h, ih, Ne.symm h]

theorem lookupA_some_mem {A : Type} {k : String} {v : A}
    {m : List (String × A)} (h : lookupA k m = some v) : (k, v) ∈ m := by
  induction m with
  | nil => simp [lookupA] at h
  | cons p m ih =>
    obtain ⟨k', v'⟩ := p
    by_cases hk : k' = k
    · subst hk
      simp [lookupA] at h
      simp [h.symm]
    · simp only [lookupA, if_neg hk] at h
      simp [ih h]

theorem keysA_insertA_not_mem {A : Type} {k : String} (v : A)
    {m : List (String × A)} (h : k ∉ keysA m) :
    keysA (insertA k v m) = keysA m ++ [k] := by
  induction m with
  | nil => simp [insertA, keysA]
  | cons p m ih =>
    obtain ⟨k', v'⟩ := p
    simp only [keysA, List.map_cons, List.mem_cons] at h
    push_neg at h
    have ih2 := ih h.2
    simp only [keysA] at ih2
    simp [insertA, Ne.symm h.1, keysA, ih2]

theorem keysA_eraseA {A : Type} (k : String) (m : List (String × A)) :
    keysA (eraseA k m) = (keysA m).filter (fun x => x != k) := by
  induction m with
  | nil => simp [eraseA, keysA]
  | cons p m ih =>
    obtain ⟨k', v'⟩ := p
    simp only [keysA] at ih
    by_cases h : k' = k
    · subst h; simp [eraseA, keysA, ih]
    · simp [eraseA, keysA, h, ih]

theorem keysA_eq_nil_iff {A : Type} (m : List (String × A)) :
    keysA m = [] ↔ m = [] := by
  cases m <;> simp [keysA]

/-! ### Claim theorems: command signatures and configuration parsing -/

/-- C2 counterexample: the claim states that a caller window identity is part
of the input of both `listen_provider` and `unlisten_provider`. In `main.rs`
the fourth parameter of `listen_provider` and the second parameter of
`unlisten_provider` are the managed `ProviderManager` state, and no parameter
of either command is the calling window. -/
theorem c2_counterexample :
    listen_provider_params.map Prod.snd =
      [.str, .providerConfigArg, .vecString, .stateProviderManager] ∧
    unlisten_provider_params.map Prod.snd = [.str, .stateProviderManager] ∧
    (¬ ∃ p ∈ listen_provider_params, p.2 = ParamKind.callerWindow) ∧
    (¬ ∃ p ∈ unlisten_provider_params, p.2 = ParamKind.callerWindow) := by
  refine ⟨rfl, rfl, ?_, ?_⟩ <;> decide

/-- C2 (amended): the inbound `listen` call carries three caller-supplied
arguments — the configuration identity, the configuration payload and the
tracked field list — plus the injected provider-manager state, and the
inbound `unlisten` call carries one caller-supplied argument — the
configuration identity — plus that state; no caller window identity is part
of either operation's input. -/
theorem c2_command_arguments :
    listen_provider_params =
      [("config_hash", .str), ("config", .providerConfigArg),
       ("tracked_access", .vecString),
       ("provider_manager", .stateProviderManager)] ∧
    unlisten_provider_params =
      [("config_hash", .str), ("provider_manager", .stateProviderManager)] ∧
    ParamKind.callerWindow ∉ listen_provider_params.map Prod.snd ∧
    ParamKind.callerWindow ∉ unlisten_provider_params.map Prod.snd := by
  refine ⟨rfl, rfl, ?_, ?_⟩ <;> decide

set_option maxRecDepth 8000 in
/-- C3 counterexample: on a non-Windows build a `komorebi`-tagged payload is
rejected at parse time, but with serde's generic unknown-variant error — the
same error an arbitrary unrecognized discriminator receives — whose rendered
message mentions neither "unsupported" nor the platform, so the rejection
does not carry a clear "unsupported on this platform" error. -/
theorem c3_counterexample :
    deserializeProviderConfig false ⟨"komorebi", []⟩ =
      .error (.unknownVariant "komorebi" (variantTags false)) ∧
    deserializeProviderConfig false ⟨"widget_gizmo", []⟩ =
      .error (.unknownVariant "widget_gizmo" (variantTags false)) ∧
    ¬ ("unsupported".toList <:+:
        (renderDeError
          (.unknownVariant "komorebi" (variantTags false))).toList) ∧
    ¬ ("platform".toList <:+:
        (renderDeError
          (.unknownVariant "komorebi" (variantTags false))).toList) := by
  refine ⟨by simp [deserializeProviderConfig], by simp [deserializeProviderConfig], ?_, ?_⟩ <;> decide

/-- C3 (amended): on a non-Windows build, every payload whose discriminator
selects the Window-Manager (Komorebi) variant is rejected at
configuration-parse time — with serde's generic unknown-variant
deserialization error rather than a platform-specific message — so it never
yields a `ProviderConfig` and cannot reach the Registry. -/
theorem c3_komorebi_parse_rejection (body : List (String × String)) :
    deserializeProviderConfig false ⟨"komorebi", body⟩ =
      .error (.unknownVariant "komorebi" (variantTags false)) ∧
    ∀ c, deserializeProviderConfig false ⟨"komorebi", body⟩ ≠ .ok c := by
  have h : deserializeProviderConfig false ⟨"komorebi", body⟩ =
      .error (.unknownVariant "komorebi" (variantTags false)) := by
    simp [deserializeProviderConfig]
  exact ⟨h, fun c hc => by rw [h] at hc; exact Except.noConfusion hc⟩

/-- C5: `ProviderConfig` is a tagged union over exactly the domains Battery,
CPU, Host, IP, Memory, Network, Weather plus the Windows-only Komorebi
variant, each carrying its own parameter record; no other variant exists,
the Komorebi tag is accepted only on a Windows build, and on a non-Windows
build no parse ever produces the Komorebi variant. -/
theorem c5_provider_config_variants :
    (∀ c : ProviderConfig,
      (∃ b, c = .battery b) ∨ (∃ b, c = .cpu b) ∨ (∃ b, c = .host b) ∨
      (∃ b, c = .ip b) ∨ (∃ b, c = .komorebi b) ∨ (∃ b, c = .memory b) ∨
      (∃ b, c = .network b) ∨ (∃ b, c = .weather b)) ∧
    variantTags true =
      ["battery", "cpu", "host", "ip", "komorebi", "memory", "network",
       "weather"] ∧
    variantTags false =
      ["battery", "cpu", "host", "ip", "memory", "network", "weather"] ∧
    (∀ p k, deserializeProviderConfig false p ≠ .ok (.komorebi k)) := by
  refine ⟨?_, rfl, rfl, ?_⟩
  · intro c
    cases c <;> simp
  · intro p k
    simp only [deserializeProviderConfig]
    split_ifs <;> simp_all

/-- C7: every call to `listen_provider` and every call to
`unlisten_provider` returns either success or an error string equal to the
string rendering of the underlying manager error, and in no other form. -/
theorem c7_error_propagation (provider_manager : ProviderManager)
    (config_hash : String) (config : ProviderConfig)
    (tracked_access : List String) :
    (listen_provider config_hash config tracked_access provider_manager =
        .ok () ∨
      ∃ e, provider_manager.create config_hash config tracked_access =
          .error e ∧
        listen_provider config_hash config tracked_access provider_manager =
          .error e.to_string) ∧
    (unlisten_provider config_hash provider_manager = .ok () ∨
      ∃ e, provider_manager.destroy config_hash = .error e ∧
        unlisten_provider config_hash provider_manager =
          .error e.to_string) := by
  constructor
  · cases h : provider_manager.create config_hash config tracked_access with
    | ok u =>
      left
      cases u
      simp [listen_provider, h, Except.mapError]
    | error e =>
      right
      exact ⟨e, rfl, by simp [listen_provider, h, Except.mapError]⟩
  · cases h : provider_manager.destroy config_hash with
    | ok u =>
      left
      cases u
      simp [unlisten_provider, h, Except.mapError]
    | error e =>
      right
      exact ⟨e, rfl, by simp [unlisten_provider, h, Except.mapError]⟩

/-- C8: `get_open_window_args` never returns an error: it returns `Ok` of
`some` of the stored record when the label is present in the
open-window-args map, `Ok none` when it is absent, and the map itself is
unchanged by the call. -/
theorem c8_get_open_window_args (window_label : String)
    (m : List (String × OpenWindowArgs)) :
    (get_open_window_args window_label m).1 =
      .ok (lookupA window_label m) ∧
    (get_open_window_args window_label m).2 = m ∧
    (∀ s, (get_open_window_args window_label m).1 ≠ .error s) ∧
    (lookupA window_label m = none ↔ window_label ∉ keysA m) ∧
    (∀ r, lookupA window_label m = some r → (window_label, r) ∈ m) := by
  refine ⟨rfl, rfl, ?_, lookupA_eq_none_iff _ _,
    fun r h => lookupA_some_mem h⟩
  intro s h
  simp [get_open_window_args] at h

theorem except_map_eq_ok {E A B : Type} (f : A → B) (x : Except E A)
    (c : B) : x.map f = .ok c ↔ ∃ v, x = .ok v ∧ c = f v := by
  cases x <;> simp [Except.map, eq_comm]

theorem deserializeProviderConfig_eq_acceptAll (windows : Bool)
    (p : Payload) :
    deserializeProviderConfig windows p =
      deserializeProviderConfigWith windows acceptAllDeserializers p := by
  simp only [deserializeProviderConfig, deserializeProviderConfigWith,
    acceptAllDeserializers]
  split_ifs <;> rfl

/-- C4: for every build platform, every behavior of the per-variant record
deserializers, and every payload: a payload whose `type` tag is not among
the supported variant tags fails deserialization with the unknown-variant
error, so it never yields a `ProviderConfig` for the Registry; and a
payload with a supported tag is dispatched to exactly the variant named by
the tag — its result is that variant's own parse outcome on the remaining
fields (which may itself reject an invalid parameter set, spec section 7) —
so every successfully parsed value is the variant named by the tag. -/
theorem c4_tag_dispatch (windows : Bool) (d : VariantDeserializers)
    (tag : String) (body : List (String × String)) :
    (tag ∉ variantTags windows →
      deserializeProviderConfigWith windows d ⟨tag, body⟩ =
        .error (.unknownVariant tag (variantTags windows))) ∧
    (∀ c, deserializeProviderConfigWith windows d ⟨tag, body⟩ = .ok c →
      tag ∈ variantTags windows ∧ tagOf c = tag) ∧
    (tag = "battery" →
      deserializeProviderConfigWith windows d ⟨tag, body⟩ =
        (d.battery body).map ProviderConfig.battery) ∧
    (tag = "cpu" →
      deserializeProviderConfigWith windows d ⟨tag, body⟩ =
        (d.cpu body).map ProviderConfig.cpu) ∧
    (tag = "host" →
      deserializeProviderConfigWith windows d ⟨tag, body⟩ =
        (d.host body).map ProviderConfig.host) ∧
    (tag = "ip" →
      deserializeProviderConfigWith windows d ⟨tag, body⟩ =
        (d.ip body).map ProviderConfig.ip) ∧
    (windows = true → tag = "komorebi" →
      deserializeProviderConfigWith windows d ⟨tag, body⟩ =
        (d.komorebi body).map ProviderConfig.komorebi) ∧
    (tag = "memory" →
      deserializeProviderConfigWith windows d ⟨tag, body⟩ =
        (d.memory body).map ProviderConfig.memory) ∧
    (tag = "network" →
      deserializeProviderConfigWith windows d ⟨tag, body⟩ =
        (d.network body).map ProviderConfig.network) ∧
    (tag = "weather" →
      deserializeProviderConfigWith windows d ⟨tag, body⟩ =
        (d.weather body).map ProviderConfig.weather) := by
  refine ⟨?_, ?_, ?_, ?_, ?_, ?_, ?_, ?_, ?_, ?_⟩
  · intro hmem
    simp only [deserializeProviderConfigWith]
    split_ifs with h1 h2 h3 h4 h5 h6 h7 h8
    · exact absurd (by subst h1; cases windows <;> simp [variantTags]) hmem
    · exact absurd (by subst h2; cases windows <;> simp [variantTags]) hmem
    · exact absurd (by subst h3; cases windows <;> simp [variantTags]) hmem
    · exact absurd (by subst h4; cases windows <;> simp [variantTags]) hmem
    · obtain ⟨hw, ht⟩ := h5
      exact absurd (by subst hw; subst ht; simp [variantTags]) hmem
    · exact absurd (by subst h6; cases windows <;> simp [variantTags]) hmem
    · exact absurd (by subst h7; cases windows <;> simp [variantTags]) hmem
    · exact absurd (by subst h8; cases windows <;> simp [variantTags]) hmem
    · rfl
  · intro c hc
    simp only [deserializeProviderConfigWith] at hc
    split_ifs at hc with h1 h2 h3 h4 h5 h6 h7 h8
    · obtain ⟨v, hv, rfl⟩ := (except_map_eq_ok _ _ _).mp hc
      exact ⟨by subst h1; cases windows <;> simp [variantTags],
        by rw [h1]; rfl⟩
    · obtain ⟨v, hv, rfl⟩ := (except_map_eq_ok _ _ _).mp hc
      exact ⟨by subst h2; cases windows <;> simp [variantTags],
        by rw [h2]; rfl⟩
    · obtain ⟨v, hv, rfl⟩ := (except_map_eq_ok _ _ _).mp hc
      exact ⟨by subst h3; cases windows <;> simp [variantTags],
        by rw [h3]; rfl⟩
    · obtain ⟨v, hv, rfl⟩ := (except_map_eq_ok _ _ _).mp hc
      exact ⟨by subst h4; cases windows <;> simp [variantTags],
        by rw [h4]; rfl⟩
    · obtain ⟨hw, ht⟩ := h5
      obtain ⟨v, hv, rfl⟩ := (except_map_eq_ok _ _ _).mp hc
      exact ⟨by subst hw; subst ht; simp [variantTags],
        by rw [ht]; rfl⟩
    · obtain ⟨v, hv, rfl⟩ := (except_map_eq_ok _ _ _).mp hc
      exact ⟨by subst h6; cases windows <;> simp [variantTags],
        by rw [h6]; rfl⟩
    · obtain ⟨v, hv, rfl⟩ := (except_map_eq_ok _ _ _).mp hc
      exact ⟨by subst h7; cases windows <;> simp [variantTags],
        by rw [h7]; rfl⟩
    · obtain ⟨v, hv, rfl⟩ := (except_map_eq_ok _ _ _).mp hc
      exact ⟨by subst h8; cases windows <;> simp [variantTags],
        by rw [h8]; rfl⟩
  · intro h1
    simp [deserializeProviderConfigWith, h1]
  · intro h2
    simp [deserializeProviderConfigWith, h2]
  · intro h3
    simp [deserializeProviderConfigWith, h3]
  · intro h4
    simp [deserializeProviderConfigWith, h4]
  · intro hw ht
    subst hw
    subst ht
    simp [deserializeProviderConfigWith]
  · intro h6
    simp [deserializeProviderConfigWith, h6]
  · intro h7
    simp [deserializeProviderConfigWith, h7]
  · intro h8
    simp [deserializeProviderConfigWith, h8]

/-- C6: the façade registers exactly six command handlers, of which exactly
two are provider operations — `listen_provider`, which forwards its
identity, configuration and tracked-fields arguments to
`ProviderManager::create`, and `unlisten_provider`, which forwards its
identity argument to `ProviderManager::destroy`; a registered handler has
access to the provider manager iff it is one of those two, and the only
provider-manager operations occurring in the registered handlers are
`create` and `destroy` — no pull-style read of current provider values is
exposed. -/
theorem c6_facade_operations :
    invoke_handler.map RegisteredCommand.name =
      ["read_config_file", "get_open_window_args", "listen_provider",
       "unlisten_provider", "set_always_on_top", "set_skip_taskbar"] ∧
    (invoke_handler.filter (fun c => c.providerOp.isSome)).map
        RegisteredCommand.name =
      ["listen_provider", "unlisten_provider"] ∧
    (invoke_handler.filter (fun c => c.providerOp.isSome)).map
        RegisteredCommand.providerOp = [some .create, some .destroy] ∧
    (∀ c ∈ invoke_handler,
      (ParamKind.stateProviderManager ∈ c.params.map Prod.snd ↔
        c.providerOp.isSome = true)) ∧
    (∀ provider_manager config_hash config tracked_access,
      listen_provider config_hash config tracked_access provider_manager =
        (provider_manager.create config_hash config
          tracked_access).mapError ManagerError.to_string) ∧
    (∀ provider_manager config_hash,
      unlisten_provider config_hash provider_manager =
        (provider_manager.destroy config_hash).mapError
          ManagerError.to_string) := by
  refine ⟨by decide, by decide, by decide, by decide,
    fun _ _ _ _ => rfl, fun _ _ => rfl⟩

/-! ### Lemmas about `collectA` -/

theorem lookupA_foldl_insertA {A : Type} (k : String) :
    ∀ (l : List (String × A)) (m : List (String × A)),
      lookupA k (l.foldl (fun m p => insertA p.1 p.2 m) m) =
        match l.reverse.find? (fun p => p.1 == k) with
        | some p => some p.2
        | none => lookupA k m
  | [], m => by simp
  | p :: l, m => by
    rw [List.foldl_cons, lookupA_foldl_insertA k l]
    rw [List.reverse_cons, List.find?_append]
    cases hfind : l.reverse.find? (fun q => q.1 == k) with
    | some q => simp [Option.orElse]
    | none =>
      simp only [Option.orElse, Option.none_orElse]
      by_cases hk : p.1 = k
      · subst hk
        simp [List.find?, lookupA_insertA_self]
      · have hb : (p.1 == k) = false := beq_eq_false_iff_ne.mpr hk
        simp [List.find?, hb, lookupA_insertA_ne hk]

theorem lookupA_collectA {A : Type} (k : String) (l : List (String × A)) :
    lookupA k (collectA l) = lastVal k l := by
  rw [collectA, lookupA_foldl_insertA k l []]
  cases hfind : l.reverse.find? (fun p => p.1 == k) <;>
    simp [lastVal, hfind, lookupA]

theorem mem_keysA_insertA {A : Type} (x k : String) (v : A)
    (m : List (String × A)) :
    x ∈ keysA (insertA k v m) ↔ x = k ∨ x ∈ keysA m := by
  induction m with
  | nil => simp [insertA, keysA]
  | cons p m ih =>
    obtain ⟨k', v'⟩ := p
    simp only [keysA] at ih
    by_cases h : k' = k
    · subst h; simp [insertA, keysA]
    · simp [insertA, keysA, h, ih]; tauto

theorem mem_keysA_foldl_insertA {A : Type} (x : String) :
    ∀ (l : List (String × A)) (m : List (String × A)),
      x ∈ keysA (l.foldl (fun m p => insertA p.1 p.2 m) m) ↔
        x ∈ l.map Prod.fst ∨ x ∈ keysA m
  | [], m => by simp
  | p :: l, m => by
    rw [List.foldl_cons, mem_keysA_foldl_insertA x l]
    rw [mem_keysA_insertA]
    simp
    tauto

theorem mem_keysA_collectA {A : Type} (x : String) (l : List (String × A)) :
    x ∈ keysA (collectA l) ↔ x ∈ l.map Prod.fst := by
  rw [collectA, mem_keysA_foldl_insertA]
  simp [keysA]

/-- C10: `emit_open_args` is total and surfaces no failure: it builds an
`OpenWindowArgs` whose args map holds exactly the given key-value pairs (the
empty map for `None`, later duplicate keys overwriting earlier ones) and
whose env is the current process environment, and a failed channel send
changes nothing about the produced value — it is only logged. -/
theorem c10_emit_open_args (window_id : String)
    (args : Option (List (String × String)))
    (env_vars : List (String × String)) (send_fails : Bool) :
    (emit_open_args window_id args env_vars send_fails).1.window_id =
      window_id ∧
    (emit_open_args window_id args env_vars send_fails).1.env =
      collectA env_vars ∧
    (args = none →
      (emit_open_args window_id args env_vars send_fails).1.args = []) ∧
    (∀ k, lookupA k
        (emit_open_args window_id args env_vars send_fails).1.args =
      lastVal k (args.getD [])) ∧
    (∀ k, k ∈ keysA
        (emit_open_args window_id args env_vars send_fails).1.args ↔
      k ∈ (args.getD []).map Prod.fst) ∧
    (emit_open_args window_id args env_vars true).1 =
      (emit_open_args window_id args env_vars false).1 := by
  refine ⟨rfl, rfl, ?_, fun k => lookupA_collectA k _,
    fun k => mem_keysA_collectA k _, rfl⟩
  rintro rfl
  rfl

/-! ### Decimal rendering lemmas -/

theorem charVal_digitChar : ∀ d, d < 10 → charVal (digitChar d) = d := by
  decide

theorem digitChar_ne_minus : ∀ d, d < 10 → digitChar d ≠ '-' := by
  decide

theorem foldr_digitChar_eq_ofDigits :
    ∀ ds : List Nat, (∀ d ∈ ds, d < 10) →
      (ds.map digitChar).foldr (fun c a => 10 * a + charVal c) 0 =
        Nat.ofDigits 10 ds
  | [], _ => by simp [Nat.ofDigits]
  | d :: ds, h => by
    have ih := foldr_digitChar_eq_ofDigits ds
      (fun x hx => h x (List.mem_cons_of_mem _ hx))
    have hd := charVal_digitChar d (h d (List.mem_cons_self _ _))
    simp only [List.map_cons, List.foldr_cons, ih, hd, Nat.ofDigits_cons]
    ring

theorem decVal_decRepr (n : Nat) : decVal (decRepr n) = n := by
  by_cases h : n = 0
  · subst h; rfl
  · simp only [decRepr, if_neg h, decVal]
    rw [List.foldl_reverse]
    rw [foldr_digitChar_eq_ofDigits _
      (fun d hd => Nat.digits_lt_base (by norm_num) hd)]
    exact_mod_cast Nat.ofDigits_digits 10 n

theorem decRepr_inj {a b : Nat} (h : decRepr a = decRepr b) : a = b := by
  have h2 := congrArg decVal h
  rwa [decVal_decRepr, decVal_decRepr] at h2

theorem decRepr_ne_minus (n : Nat) : ∀ c ∈ decRepr n, c ≠ '-' := by
  intro c hc
  by_cases h : n = 0
  · subst h
    simp [decRepr] at hc
    subst hc
    decide
  · simp only [decRepr, if_neg h, List.mem_reverse, List.mem_map] at hc
    obtain ⟨d, hd, rfl⟩ := hc
    exact digitChar_ne_minus d (Nat.digits_lt_base (by norm_num) hd)

theorem append_minus_inj :
    ∀ {l₁ l₂ r₁ r₂ : List Char},
      (∀ c ∈ l₁, c ≠ '-') → (∀ c ∈ l₂, c ≠ '-') →
      l₁ ++ '-' :: r₁ = l₂ ++ '-' :: r₂ → l₁ = l₂ ∧ r₁ = r₂
  | [], l₂, r₁, r₂, _, h₂, h => by
    cases l₂ with
    | nil => simpa using h
    | cons c t =>
      simp only [List.nil_append, List.cons_append, List.cons.injEq] at h
      exact absurd h.1.symm (h₂ c (List.mem_cons_self _ _))
  | c :: t, l₂, r₁, r₂, h₁, h₂, h => by
    cases l₂ with
    | nil =>
      simp only [List.nil_append, List.cons_append, List.cons.injEq] at h
      exact absurd h.1 (h₁ c (List.mem_cons_self _ _))
    | cons c' t' =>
      simp only [List.cons_append, List.cons.injEq] at h
      obtain ⟨rfl, h2⟩ := h
      obtain ⟨ht, hr⟩ := append_minus_inj
        (fun x hx => h₁ x (List.mem_cons_of_mem _ hx))
        (fun x hx => h₂ x (List.mem_cons_of_mem _ hx)) h2
      exact ⟨by rw [ht], hr⟩

theorem decRepr_ne_nil (n : Nat) : decRepr n ≠ [] := by
  by_cases h : n = 0
  · subst h
    simp [decRepr]
  · have hd : Nat.digits 10 n ≠ [] := Nat.digits_ne_nil_iff_ne_zero.mpr h
    simp [decRepr, h, hd]

theorem wrap32_lt (n : Nat) : wrap32 n < 4294967296 :=
  Nat.mod_lt _ (by norm_num)

theorem windowLabel_inj {a b : Nat} {x y : String}
    (ha : a < 4294967296) (hb : b < 4294967296)
    (h : windowLabel a x = windowLabel b y) : a = b ∧ x = y := by
  have hminus : ("-" : String).data = ['-'] := rfl
  have hd : i32Chars a ++ '-' :: x.data = i32Chars b ++ '-' :: y.data := by
    have h2 := congrArg String.data h
    simpa [windowLabel, i32Str, String.data_append, hminus] using h2
  by_cases h1 : a < 2147483648 <;> by_cases h2 : b < 2147483648
  · rw [i32Chars, if_pos h1, i32Chars, if_pos h2] at hd
    obtain ⟨hab, hxy⟩ :=
      append_minus_inj (decRepr_ne_minus a) (decRepr_ne_minus b) hd
    exact ⟨decRepr_inj hab, String.ext hxy⟩
  · exfalso
    rw [i32Chars, if_pos h1, i32Chars, if_neg h2] at hd
    cases hda : decRepr a with
    | nil => exact decRepr_ne_nil a hda
    | cons c cs =>
      rw [hda] at hd
      simp only [List.cons_append, List.cons.injEq] at hd
      exact decRepr_ne_minus a c
        (by rw [hda]; exact List.mem_cons_self _ _) hd.1
  · exfalso
    rw [i32Chars, if_neg h1, i32Chars, if_pos h2] at hd
    cases hdb : decRepr b with
    | nil => exact decRepr_ne_nil b hdb
    | cons c cs =>
      rw [hdb] at hd
      simp only [List.cons_append, List.cons.injEq] at hd
      exact decRepr_ne_minus b c
        (by rw [hdb]; exact List.mem_cons_self _ _) hd.1.symm
  · rw [i32Chars, if_neg h1, i32Chars, if_neg h2] at hd
    have hd2 : decRepr (4294967296 - a) ++ '-' :: x.data =
        decRepr (4294967296 - b) ++ '-' :: y.data := by
      simpa using hd
    obtain ⟨hab, hxy⟩ :=
      append_minus_inj (decRepr_ne_minus _) (decRepr_ne_minus _) hd2
    have hm := decRepr_inj hab
    exact ⟨by omega, String.ext hxy⟩

/-! ### Window-creation loop lemmas -/

theorem runWindowLoop_labels_shape :
    ∀ (reqs : List OpenWindowArgs) (s : WindowLoopState) (x : String),
      x ∈ (runWindowLoop s reqs).2 →
      ∃ i id, 1 ≤ i ∧ i ≤ reqs.length ∧
        x = windowLabel (wrap32 (s.window_count + i)) id
  | [], s, x, hx => by simp [runWindowLoop] at hx
  | a :: rest, s, x, hx => by
    simp only [runWindowLoop, processOpenArgs, List.mem_cons] at hx
    rcases hx with rfl | hx
    · exact ⟨1, a.window_id, le_refl 1, by simp [List.length_cons], rfl⟩
    · obtain ⟨i, id, hi1, hi2, hxeq⟩ :=
        runWindowLoop_labels_shape rest _ _ hx
      refine ⟨i + 1, id, by omega,
        by simp only [List.length_cons]; omega, ?_⟩
      rw [hxeq]
      exact congrArg (fun k => windowLabel k id)
        (show wrap32 (wrap32 (s.window_count + 1) + i) =
            wrap32 (s.window_count + (i + 1)) by unfold wrap32; omega)

theorem runWindowLoop_labels_nodup :
    ∀ (reqs : List OpenWindowArgs) (s : WindowLoopState),
      s.window_count + reqs.length ≤ 4294967296 →
      (runWindowLoop s reqs).2.Nodup
  | [], _, _ => by simp [runWindowLoop]
  | a :: rest, s, hbound => by
    have hbound' :
        wrap32 (s.window_count + 1) + rest.length ≤ 4294967296 := by
      simp only [List.length_cons] at hbound
      unfold wrap32
      omega
    simp only [runWindowLoop, processOpenArgs]
    refine List.nodup_cons.mpr
      ⟨?_, runWindowLoop_labels_nodup rest _ hbound'⟩
    intro hmem
    obtain ⟨i, id, hi1, hi2, heq⟩ := runWindowLoop_labels_shape rest _ _ hmem
    dsimp only at heq hi2
    have hc := (windowLabel_inj (wrap32_lt _) (wrap32_lt _) heq).1
    simp only [List.length_cons] at hbound
    unfold wrap32 at hc
    omega

theorem runWindowLoop_count :
    ∀ (reqs : List OpenWindowArgs) (s : WindowLoopState),
      s.window_count < 4294967296 →
      ((runWindowLoop s reqs).1).window_count =
        (s.window_count + reqs.length) % 4294967296
  | [], s, hs => by
    simp [runWindowLoop, Nat.mod_eq_of_lt hs]
  | a :: rest, s, _ => by
    simp only [runWindowLoop, processOpenArgs, List.length_cons]
    rw [runWindowLoop_count rest _ (wrap32_lt _)]
    dsimp only
    unfold wrap32
    omega

theorem runWindowLoop_replicate_labels (a : OpenWindowArgs) :
    ∀ (n : Nat) (s : WindowLoopState),
      (runWindowLoop s (List.replicate n a)).2 =
        (List.range n).map
          (fun i =>
            windowLabel (wrap32 (s.window_count + i + 1)) a.window_id)
  | 0, _ => by simp [runWindowLoop]
  | n + 1, s => by
    rw [List.replicate_succ]
    simp only [runWindowLoop, processOpenArgs]
    rw [runWindowLoop_replicate_labels a n]
    rw [List.range_succ_eq_map]
    simp only [List.map_cons, List.map_map]
    refine congrArg₂ List.cons ?_ ?_
    · exact congrArg (fun k => windowLabel k a.window_id)
        (show wrap32 (s.window_count + 1) =
            wrap32 (s.window_count + 0 + 1) by unfold wrap32; omega)
    · refine List.map_congr_left ?_
      intro i _
      simp only [Function.comp_apply]
      exact congrArg (fun k => windowLabel k a.window_id)
        (show wrap32 (wrap32 (s.window_count + 1) + i + 1) =
            wrap32 (s.window_count + Nat.succ i + 1) by
          unfold wrap32; omega)

/-- C9 counterexample: the claim asserts label uniqueness for every two
distinct open requests in a process run, but the window counter is an `i32`
that wraps at 2^32 under the release profile: on a schedule of 2^32 + 1
requests for the same window id, the first and the last request both get
counter pattern 1 and hence the same label, so the generated labels are not
pairwise distinct. -/
theorem c9_counterexample :
    ¬ (runWindowLoop ⟨0, []⟩
        (List.replicate 4294967297 ⟨"w", [], []⟩)).2.Nodup := by
  intro hnd
  rw [runWindowLoop_replicate_labels] at hnd
  have hinj := List.inj_on_of_nodup_map hnd
  have h0 : (0 : Nat) ∈ List.range 4294967297 :=
    List.mem_range.mpr (by norm_num)
  have h1 : (4294967296 : Nat) ∈ List.range 4294967297 :=
    List.mem_range.mpr (by norm_num)
  have harg : wrap32 (0 + 0 + 1) = wrap32 (0 + 4294967296 + 1) := by
    unfold wrap32
    omega
  have hcontra : (0 : Nat) = 4294967296 :=
    hinj h0 h1 (congrArg (fun k => windowLabel k "w") harg)
  norm_num at hcontra

/-- C9 (amended): the window counter of the creation loop is an `i32`,
incremented by one — modulo 2^32, per the release-profile wrapping
semantics — for each received open request before building the window, so
after processing the requests the counter equals the request count modulo
2^32; and for every schedule of at most 2^32 open requests the generated
window labels (the counter value prefixed to the window id, joined by a
dash) are pairwise distinct. Beyond 2^32 requests the counter repeats and
labels can collide (a debug build instead panics at the 2^31-th
increment). -/
theorem c9_window_labels_unique (reqs : List OpenWindowArgs)
    (hlen : reqs.length ≤ 4294967296) :
    (runWindowLoop ⟨0, []⟩ reqs).2.Nodup ∧
    ((runWindowLoop ⟨0, []⟩ reqs).1).window_count =
      reqs.length % 4294967296 := by
  constructor
  · exact runWindowLoop_labels_nodup reqs ⟨0, []⟩ (by simpa using hlen)
  · have h := runWindowLoop_count reqs ⟨0, []⟩ (by norm_num)
    simpa using h

/-- C9 witness: three open requests (two sharing a window id) from a fresh
loop state: the three labels are pairwise distinct and the counter ends at
3 (= 3 mod 2^32). -/
theorem c9_window_labels_unique_witness :
    (runWindowLoop ⟨0, []⟩
      [⟨"main", [], []⟩, ⟨"main", [], []⟩, ⟨"bar", [], []⟩]).2.Nodup ∧
    ((runWindowLoop ⟨0, []⟩
      [⟨"main", [], []⟩, ⟨"main", [], []⟩, ⟨"bar", [], []⟩]).1).window_count =
      ([⟨"main", [], []⟩, ⟨"main", [], []⟩,
        ⟨"bar", [], []⟩] : List OpenWindowArgs).length % 4294967296 :=
  c9_window_labels_unique
    [⟨"main", [], []⟩, ⟨"main", [], []⟩, ⟨"bar", [], []⟩] (by decide)

/-! ### Registry lemmas -/

theorem acquire_fresh {r : Registry} {identity : String}
    (h : lookupA identity r.instances = none) (config : ProviderConfig)
    (w : String) (tf : List String) :
    (r.acquire identity config w tf).started = r.started + 1 ∧
    (r.acquire identity config w tf).stopped = r.stopped ∧
    lookupA identity (r.acquire identity config w tf).instances =
      some ⟨config, [(w, tf)]⟩ := by
  simp [Registry.acquire, h, lookupA_insertA_self]

theorem acquire_existing {r : Registry} {identity : String}
    {inst : ProviderInstance}
    (h : lookupA identity r.instances = some inst) (config : ProviderConfig)
    (w : String) (tf : List String) :
    (r.acquire identity config w tf).started = r.started ∧
    (r.acquire identity config w tf).stopped = r.stopped ∧
    lookupA identity (r.acquire identity config w tf).instances =
      some ⟨inst.config, insertA w tf inst.subscribers⟩ := by
  simp [Registry.acquire, h, lookupA_insertA_self]

theorem acquireAll_existing {identity : String} (config : ProviderConfig)
    (tracked : String → List String) :
    ∀ (vs : List String) (r : Registry) (inst : ProviderInstance),
      lookupA identity r.instances = some inst →
      (∀ v ∈ vs, v ∉ keysA inst.subscribers) → vs.Nodup →
      (Registry.acquireAll r identity config tracked vs).started =
        r.started ∧
      (Registry.acquireAll r identity config tracked vs).stopped =
        r.stopped ∧
      ∃ subs,
        lookupA identity
            (Registry.acquireAll r identity config tracked vs).instances =
          some ⟨inst.config, subs⟩ ∧
        keysA subs = keysA inst.subscribers ++ vs
  | [], r, inst, h, _, _ => by
    refine ⟨rfl, rfl, inst.subscribers, ?_, by simp⟩
    simpa using h
  | v :: vs, r, inst, h, hdisj, hnd => by
    have step := acquire_existing h config v (tracked v)
    have hkeys : keysA (insertA v (tracked v) inst.subscribers) =
        keysA inst.subscribers ++ [v] :=
      keysA_insertA_not_mem _ (hdisj v (List.mem_cons_self _ _))
    have hvnotin : v ∉ vs := (List.nodup_cons.mp hnd).1
    have hdisj' : ∀ x ∈ vs,
        x ∉ keysA (insertA v (tracked v) inst.subscribers) := by
      intro x hx
      rw [hkeys]
      simp only [List.mem_append, List.mem_singleton]
      rintro (hx2 | rfl)
      · exact hdisj x (List.mem_cons_of_mem _ hx) hx2
      · exact hvnotin hx
    obtain ⟨h1, h2, subs, h3, h4⟩ := acquireAll_existing config tracked vs
      (r.acquire identity config v (tracked v))
      ⟨inst.config, insertA v (tracked v) inst.subscribers⟩
      step.2.2 hdisj' (List.nodup_cons.mp hnd).2
    have hfold : Registry.acquireAll r identity config tracked (v :: vs) =
        Registry.acquireAll (r.acquire identity config v (tracked v))
          identity config tracked vs := rfl
    refine ⟨?_, ?_, subs, ?_, ?_⟩
    · rw [hfold, h1, step.1]
    · rw [hfold, h2, step.2.1]
    · rw [hfold]; exact h3
    · rw [h4]
      simp only at hkeys ⊢
      rw [hkeys, List.append_assoc]
      rfl

theorem acquireAll_from_empty {identity : String} (config : ProviderConfig)
    (tracked : String → List String) {ws : List String}
    (hne : ws ≠ []) (hnd : ws.Nodup) :
    (Registry.acquireAll Registry.empty identity config tracked ws).started =
      1 ∧
    (Registry.acquireAll Registry.empty identity config tracked ws).stopped =
      0 ∧
    ∃ subs,
      lookupA identity
          (Registry.acquireAll Registry.empty identity config
            tracked ws).instances = some ⟨config, subs⟩ ∧
      keysA subs = ws := by
  obtain ⟨w, vs, rfl⟩ := List.exists_cons_of_ne_nil hne
  have h0 : lookupA identity (Registry.empty).instances = none := rfl
  have step := acquire_fresh h0 config w (tracked w)
  have hwnotin : w ∉ vs := (List.nodup_cons.mp hnd).1
  have hdisj : ∀ v ∈ vs,
      v ∉ keysA (([(w, tracked w)] : List (String × List String))) := by
    intro v hv
    simp only [keysA, List.map_cons, List.map_nil, List.mem_singleton]
    rintro rfl
    exact hwnotin hv
  obtain ⟨h1, h2, subs, h3, h4⟩ := acquireAll_existing config tracked vs
    (Registry.empty.acquire identity config w (tracked w))
    ⟨config, [(w, tracked w)]⟩ step.2.2 hdisj (List.nodup_cons.mp hnd).2
  have hfold :
      Registry.acquireAll Registry.empty identity config tracked (w :: vs) =
      Registry.acquireAll
        (Registry.empty.acquire identity config w (tracked w))
        identity config tracked vs := rfl
  refine ⟨?_, ?_, subs, ?_, ?_⟩
  · rw [hfold, h1, step.1]; rfl
  · rw [hfold, h2, step.2.1]; rfl
  · rw [hfold]; exact h3
  · rw [h4]; simp [keysA]

theorem release_last {r : Registry} {identity w : String}
    {inst : ProviderInstance}
    (h : lookupA identity r.instances = some inst)
    (he : eraseA w inst.subscribers = []) :
    (r.release identity w).started = r.started ∧
    (r.release identity w).stopped = r.stopped + 1 ∧
    lookupA identity (r.release identity w).instances = none := by
  simp [Registry.release, h, he, lookupA_eraseA_self]

theorem release_not_last {r : Registry} {identity w : String}
    {inst : ProviderInstance}
    (h : lookupA identity r.instances = some inst)
    (hne : eraseA w inst.subscribers ≠ []) :
    (r.release identity w).started = r.started ∧
    (r.release identity w).stopped = r.stopped ∧
    lookupA identity (r.release identity w).instances =
      some ⟨inst.config, eraseA w inst.subscribers⟩ := by
  have hb : (eraseA w inst.subscribers).isEmpty = false := by
    simpa [List.isEmpty_iff] using hne
  simp [Registry.release, h, hb, lookupA_insertA_self]

theorem releaseAll_perm {identity : String} :
    ∀ (perm : List String) (r : Registry) (inst : ProviderInstance),
      lookupA identity r.instances = some inst →
      (keysA inst.subscribers).Nodup →
      perm ≠ [] →
      List.Perm perm (keysA inst.subscribers) →
      (Registry.releaseAll r identity perm).started = r.started ∧
      (Registry.releaseAll r identity perm).stopped = r.stopped + 1 ∧
      lookupA identity
        (Registry.releaseAll r identity perm).instances = none
  | [], _, _, _, _, hne, _ => absurd rfl hne
  | w :: p', r, inst, h, hnd, _, hperm => by
    obtain ⟨hw, hp'⟩ := List.cons_perm_iff_perm_erase.mp hperm
    have hkeys : keysA (eraseA w inst.subscribers) =
        (keysA inst.subscribers).erase w := by
      rw [keysA_eraseA, hnd.erase_eq_filter]
    have hfold : Registry.releaseAll r identity (w :: p') =
        Registry.releaseAll (r.release identity w) identity p' := rfl
    by_cases hp : p' = []
    · subst hp
      have e1 : (keysA inst.subscribers).erase w = [] :=
        hp'.symm.eq_nil
      have e2 : eraseA w inst.subscribers = [] :=
        (keysA_eq_nil_iff _).mp (hkeys.trans e1)
      have step := release_last h e2
      exact ⟨step.1, step.2.1, step.2.2⟩
    · have e2 : eraseA w inst.subscribers ≠ [] := by
        intro hcontra
        apply hp
        have hkeynil : (keysA inst.subscribers).erase w = [] := by
          rw [← hkeys, hcontra]; rfl
        rw [hkeynil] at hp'
        exact hp'.eq_nil
      have step := release_not_last h e2
      have hnd' : (keysA (eraseA w inst.subscribers)).Nodup := by
        rw [keysA_eraseA]
        exact hnd.filter _
      obtain ⟨i1, i2, i3⟩ := releaseAll_perm p' (r.release identity w)
        ⟨inst.config, eraseA w inst.subscribers⟩ step.2.2
        (by simpa using hnd') hp (by simpa [hkeys] using hp')
      refine ⟨?_, ?_, ?_⟩
      · rw [hfold, i1, step.1]
      · rw [hfold, i2, step.2.1]
      · rw [hfold]; exact i3

/-- C1: for every sequence of `create` calls with the same configuration
identity and configuration, issued from N different windows (N ≥ 1, each
with its own tracked-access set), exactly one provider background
computation is started; and destroying all N subscribers, in any order,
results in exactly one `stop` call — after which no instance remains
registered for the identity. -/
theorem c1_dedup_invariant (identity : String) (config : ProviderConfig)
    (tracked : String → List String) (ws perm : List String)
    (hne : ws ≠ []) (hnd : ws.Nodup) (hperm : List.Perm perm ws) :
    (Registry.acquireAll Registry.empty identity config tracked ws).started =
      1 ∧
    (Registry.releaseAll
        (Registry.acquireAll Registry.empty identity config tracked ws)
        identity perm).stopped = 1 ∧
    lookupA identity
      (Registry.releaseAll
        (Registry.acquireAll Registry.empty identity config tracked ws)
        identity perm).instances = none := by
  obtain ⟨h1, h2, subs, h3, h4⟩ :=
    @acquireAll_from_empty identity config tracked ws hne hnd
  have hndk : (keysA subs).Nodup := by rw [h4]; exact hnd
  have hpne : perm ≠ [] := by
    rintro rfl
    exact hne hperm.symm.eq_nil
  obtain ⟨r1, r2, r3⟩ := releaseAll_perm perm
    (Registry.acquireAll Registry.empty identity config tracked ws)
    ⟨config, subs⟩ h3 (by simpa using hndk) hpne (by simpa [h4] using hperm)
  exact ⟨h1, by rw [r2, h2], r3⟩

/-- C1 witness: three windows acquire the same identity and configuration,
then release in a different order: one start, one stop, no instance left. -/
theorem c1_dedup_invariant_witness :
    (Registry.acquireAll Registry.empty "cfg1"
      (.battery ⟨[]⟩) (fun _ => []) ["wa", "wb", "wc"]).started = 1 ∧
    (Registry.releaseAll
        (Registry.acquireAll Registry.empty "cfg1"
          (.battery ⟨[]⟩) (fun _ => []) ["wa", "wb", "wc"])
        "cfg1" ["wb", "wc", "wa"]).stopped = 1 ∧
    lookupA "cfg1"
      (Registry.releaseAll
        (Registry.acquireAll Registry.empty "cfg1"
          (.battery ⟨[]⟩) (fun _ => []) ["wa", "wb", "wc"])
        "cfg1" ["wb", "wc", "wa"]).instances = none :=
  c1_dedup_invariant "cfg1" (.battery ⟨[]⟩) (fun _ => [])
    ["wa", "wb", "wc"] ["wb", "wc", "wa"]
    (by decide) (by decide) (by decide)

end Zebar
